import Mathlib

/-!
Verification of the adaptive inference pipeline in
compiled_model_api/image_classification/python/imagenet-e2e-sample/main.py.

The Python functions are shallowly embedded: Python ints become Int or Nat,
numpy float arrays become lists of rationals or reals, dictionaries become
association lists, and fallible operations return Except or Option.
-/

namespace ImagenetSample

/-- A raw dimension entry of a buffer-requirements dimension list: either a
value convertible to an integer, or a non-numeric entry on which the Python
conversion int(dim) raises. -/
inductive RawDim where
  | num (n : Int)
  | nonNum
  deriving DecidableEq, Repr

/-- Conversion of one raw dimension entry, mirroring Python int(dim):
succeeds exactly on numeric entries. -/
def RawDim.toInt : RawDim → Option Int
  | RawDim.num n => some n
  | RawDim.nonNum => none

/-- Conversion of all dimension entries, mirroring the Python list
comprehension [int(dim) for dim in dims] under try/except: all entries
convert, or the whole conversion fails. -/
def convertDims : List RawDim → Option (List Int)
  | [] => some []
  | d :: ds =>
    match d.toInt, convertDims ds with
    | some n, some ns => some (n :: ns)
    | _, _ => none

/-- Input-buffer requirements as read by _infer_input_size: the three
dimension keys it probes, each possibly absent. -/
structure Requirements where
  dimensions : Option (List RawDim)
  shape : Option (List RawDim)
  dims : Option (List RawDim)
  deriving Repr

/-- Python falsy-or on two optional lists: an absent or empty left operand
falls through to the right one. -/
def orFalsy (a b : Option (List RawDim)) : Option (List RawDim) :=
  match a with
  | some l => if l.isEmpty then b else some l
  | none => b

/-- The dimension-list probe in _infer_input_size:
requirements.get("dimensions") or requirements.get("shape") or
requirements.get("dims"). -/
def getDimsEntry (req : Requirements) : Option (List RawDim) :=
  orFalsy req.dimensions (orFalsy req.shape req.dims)

/-- The default spatial size (224, 224) used by _infer_input_size. -/
def defaultSize : Int × Int := (224, 224)

/-- The 3-element branch of _infer_input_size: channel-first when the first
entry is 3, channel-last when the last entry is 3, otherwise the default. -/
def inferSizeFrom3 : List Int → Int × Int
  | [a, b, c] =>
    if a = 3 then (b, c)
    else if c = 3 then (a, b)
    else defaultSize
  | _ => defaultSize

/-- The shape dispatch of _infer_input_size on an already-converted integer
dimension list: the 4-element NCHW/NHWC tests, the batch-drop to the
3-element branch, the 3-element branch itself, and the default fallback. -/
def inferSizeFromInts : List Int → Int × Int
  | [a, b, c, d] =>
    if b = 3 then (c, d)
    else if d = 3 then (b, c)
    else if a = 1 ∨ a = -1 then inferSizeFrom3 [b, c, d]
    else defaultSize
  | [a, b, c] => inferSizeFrom3 [a, b, c]
  | _ => defaultSize

/-- Full embedding of _infer_input_size. The requirements retrieval is an
Except value: an error models get_input_buffer_requirements raising, which
the function swallows. Every later failure (no dimension key, empty list,
non-numeric entry, unexpected rank) also returns the default. -/
def inferInputSize (fetch : Except Unit Requirements) : Int × Int :=
  match fetch with
  | Except.error _ => defaultSize
  | Except.ok req =>
    match getDimsEntry req with
    | none => defaultSize
    | some l =>
      if l.isEmpty then defaultSize
      else
        match convertDims l with
        | none => defaultSize
        | some ints => inferSizeFromInts ints

/-- Conversion fails whenever some entry is non-numeric, as the Python
try/except around the comprehension does. -/
theorem convertDims_eq_none_of_nonNum {l : List RawDim} (h : RawDim.nonNum ∈ l) :
    convertDims l = none := by
  induction l with
  | nil => cases h
  | cons d ds ih =>
    cases h with
    | head => simp [convertDims, RawDim.toInt]
    | tail _ hm =>
      cases hd : d.toInt <;> simp [convertDims, hd, ih hm]

/-- Lists of rank other than 3 and 4 fall through to the default size. -/
theorem inferSizeFromInts_default (l : List Int) (h3 : l.length ≠ 3) (h4 : l.length ≠ 4) :
    inferSizeFromInts l = defaultSize := by
  match l with
  | [] => rfl
  | [a] => rfl
  | [a, b] => rfl
  | [a, b, c] => simp at h3
  | [a, b, c, d] => simp at h4
  | a :: b :: c :: d :: e :: rest => rfl

/-- C1: for every 4-element integer dimension list [a, b, c, d],
_infer_input_size returns (c, d) when b = 3 (channel-first), else (b, c)
when d = 3 (channel-last), else the result of the 3-element rules on
[b, c, d] when a is 1 or -1; every 4-element list with b ≠ 3 and d ≠ 3
and every 3-element list matching neither channel rule yield (224, 224);
in particular (1, 3, 224, 224) and (1, 224, 224, 3) both yield (224, 224). -/
theorem infer_input_size_shape_rules (a b c d : Int) :
    (b = 3 → inferSizeFromInts [a, b, c, d] = (c, d)) ∧
    (b ≠ 3 → d = 3 → inferSizeFromInts [a, b, c, d] = (b, c)) ∧
    (b ≠ 3 → d ≠ 3 → (a = 1 ∨ a = -1) →
      inferSizeFromInts [a, b, c, d] = inferSizeFrom3 [b, c, d]) ∧
    (b ≠ 3 → d ≠ 3 → inferSizeFromInts [a, b, c, d] = (224, 224)) ∧
    (∀ x y z : Int, x ≠ 3 → z ≠ 3 → inferSizeFromInts [x, y, z] = (224, 224)) ∧
    inferSizeFromInts [1, 3, 224, 224] = (224, 224) ∧
    inferSizeFromInts [1, 224, 224, 3] = (224, 224) := by
  refine ⟨?_, ?_, ?_, ?_, ?_, by decide, by decide⟩ <;>
    intros <;> simp_all [inferSizeFromInts, inferSizeFrom3, defaultSize]

/-- Witness for C1 at a concrete input: the dimension list [2, 5, 6, 7]
matches no channel pattern and yields the default (224, 224). -/
theorem infer_input_size_shape_rules_witness :
    inferSizeFromInts [2, 5, 6, 7] = (224, 224) :=
  (infer_input_size_shape_rules 2 5 6 7).2.2.2.1 (by decide) (by decide)

/-- C2: _infer_input_size never raises: a requirements retrieval that
raises, requirements lacking all of the dimension keys, an empty dimension
list, a list with a non-numeric entry, and a list whose length is neither
3 nor 4 all yield the default (224, 224). -/
theorem infer_input_size_never_raises (req : Requirements) (l : List RawDim)
    (ints : List Int) :
    inferInputSize (Except.error ()) = (224, 224) ∧
    (getDimsEntry req = none → inferInputSize (Except.ok req) = (224, 224)) ∧
    (getDimsEntry req = some [] → inferInputSize (Except.ok req) = (224, 224)) ∧
    (getDimsEntry req = some l → RawDim.nonNum ∈ l →
      inferInputSize (Except.ok req) = (224, 224)) ∧
    (getDimsEntry req = some l → convertDims l = some ints →
      ints.length ≠ 3 → ints.length ≠ 4 →
      inferInputSize (Except.ok req) = (224, 224)) := by
  refine ⟨rfl, ?_, ?_, ?_, ?_⟩
  · intro hget
    simp [inferInputSize, hget, defaultSize]
  · intro hget
    simp [inferInputSize, hget, defaultSize]
  · intro hget hmem
    simp only [inferInputSize, hget]
    by_cases he : l.isEmpty
    · simp [he, defaultSize]
    · simp [he, convertDims_eq_none_of_nonNum hmem, defaultSize]
  · intro hget hconv h3 h4
    simp only [inferInputSize, hget]
    by_cases he : l.isEmpty
    · simp [he, defaultSize]
    · simp [he, hconv, inferSizeFromInts_default ints h3 h4, defaultSize]

/-- Witness for C2 at concrete inputs: requirements whose dimensions entry
holds a non-numeric value yield (224, 224), and a numeric 5-element list
also yields (224, 224). -/
theorem infer_input_size_never_raises_witness :
    inferInputSize (Except.ok (Requirements.mk (some [RawDim.nonNum]) none none))
      = (224, 224) ∧
    inferInputSize (Except.ok (Requirements.mk
      (some [RawDim.num 1, RawDim.num 2, RawDim.num 3, RawDim.num 4, RawDim.num 5])
      none none)) = (224, 224) :=
  ⟨(infer_input_size_never_raises
      (Requirements.mk (some [RawDim.nonNum]) none none)
      [RawDim.nonNum] []).2.2.2.1 (by decide) (by decide),
   (infer_input_size_never_raises
      (Requirements.mk
        (some [RawDim.num 1, RawDim.num 2, RawDim.num 3, RawDim.num 4, RawDim.num 5])
        none none)
      [RawDim.num 1, RawDim.num 2, RawDim.num 3, RawDim.num 4, RawDim.num 5]
      [1, 2, 3, 4, 5]).2.2.2.2 (by decide) (by decide) (by decide) (by decide)⟩

/-- Numpy element types the sample can select, the targets of
_LITERT_TYPE_TO_NP. -/
inductive NpDtype where
  | float32
  | int8
  | uint8
  | int32
  deriving DecidableEq, Repr

/-- The _LITERT_TYPE_TO_NP dictionary: LiteRT element-type identifier to
numpy dtype; absent keys have no entry. -/
def litertTypeToNp (t : Int) : Option NpDtype :=
  if t = 1 then some NpDtype.float32
  else if t = 9 then some NpDtype.int8
  else if t = 3 then some NpDtype.uint8
  else if t = 2 then some NpDtype.int32
  else none

/-- Embedding of _pick_output_dtype: the loop over the preference tuple
(1, 9, 3, 2) unrolled, then the dict .get fallback on the first listed
type, then float32. -/
def pickOutputDtype (supported : List Int) : NpDtype :=
  if 1 ∈ supported then NpDtype.float32
  else if 9 ∈ supported then NpDtype.int8
  else if 3 ∈ supported then NpDtype.uint8
  else if 2 ∈ supported then NpDtype.int32
  else
    match supported with
    | [] => NpDtype.float32
    | t :: _ => (litertTypeToNp t).getD NpDtype.float32

/-- Byte width of each selectable numpy dtype (np.dtype(...).itemsize). -/
def NpDtype.itemsize : NpDtype → Nat
  | NpDtype.float32 => 4
  | NpDtype.int8 => 1
  | NpDtype.uint8 => 1
  | NpDtype.int32 => 4

/-- Output-buffer requirements as read by _read_output: the supported-type
identifiers, and the total byte size (requirements.get with default 0). -/
structure OutputReq where
  supported_types : List Int
  buffer_size : Nat
  deriving Repr

/-- Embedding of _read_output. The buffer itself is an external runtime
handle, so the observable effect of the decoder is the read request it
issues, an element count and a dtype, or the ValueError it raises. -/
def readOutput (req : OutputReq) : Except String (Nat × NpDtype) :=
  let output_dtype := pickOutputDtype req.supported_types
  let isz := output_dtype.itemsize
  let num_elements := if isz ≠ 0 then req.buffer_size / isz else req.buffer_size
  if num_elements = 0 then Except.error "Output buffer size is zero"
  else Except.ok (num_elements, output_dtype)

/-- Every selectable dtype has a positive byte width. -/
theorem NpDtype.itemsize_ne_zero (dt : NpDtype) : dt.itemsize ≠ 0 := by
  cases dt <;> decide

/-- C3: output dtype selection honours the preference order
float32 (1) > int8 (9) > uint8 (3) > int32 (2) regardless of the order
of the supported-type collection, so both [9, 1] and [1, 9] select
float32; with none of the four preferred identifiers present, a non-empty
collection selects the dtype the table associates to its first element
(float32 when the table has no entry for it), and an empty collection
selects float32. -/
theorem pick_output_dtype_preference (supported : List Int) :
    (1 ∈ supported → pickOutputDtype supported = NpDtype.float32) ∧
    (1 ∉ supported → 9 ∈ supported → pickOutputDtype supported = NpDtype.int8) ∧
    (1 ∉ supported → 9 ∉ supported → 3 ∈ supported →
      pickOutputDtype supported = NpDtype.uint8) ∧
    (1 ∉ supported → 9 ∉ supported → 3 ∉ supported → 2 ∈ supported →
      pickOutputDtype supported = NpDtype.int32) ∧
    (∀ t ts, 1 ∉ supported → 9 ∉ supported → 3 ∉ supported → 2 ∉ supported →
      supported = t :: ts →
      pickOutputDtype supported = (litertTypeToNp t).getD NpDtype.float32) ∧
    (supported = [] → pickOutputDtype supported = NpDtype.float32) ∧
    pickOutputDtype [9, 1] = NpDtype.float32 ∧
    pickOutputDtype [1, 9] = NpDtype.float32 := by
  refine ⟨?_, ?_, ?_, ?_, ?_, ?_, by decide, by decide⟩ <;>
    intros <;> simp_all [pickOutputDtype]

/-- Witness for C3 at concrete inputs: [2, 9] selects int8, and the
unknown-only collection [7] selects float32 through the table default. -/
theorem pick_output_dtype_preference_witness :
    pickOutputDtype [2, 9] = NpDtype.int8 ∧
    pickOutputDtype [7] = NpDtype.float32 :=
  ⟨(pick_output_dtype_preference [2, 9]).2.1 (by decide) (by decide),
   (pick_output_dtype_preference [7]).2.2.2.2.1 7 [] (by decide) (by decide)
     (by decide) (by decide) rfl⟩

/-- C4: the decoder computes the element count as the buffer byte size
integer-divided by the chosen dtype byte width, errors exactly when that
count is zero, and otherwise issues a read of exactly that many elements
of the chosen dtype. -/
theorem read_output_element_count (req : OutputReq) :
    (readOutput req = Except.error "Output buffer size is zero" ↔
      req.buffer_size / (pickOutputDtype req.supported_types).itemsize = 0) ∧
    (req.buffer_size / (pickOutputDtype req.supported_types).itemsize ≠ 0 →
      readOutput req = Except.ok
        (req.buffer_size / (pickOutputDtype req.supported_types).itemsize,
          pickOutputDtype req.supported_types)) := by
  have hsz := NpDtype.itemsize_ne_zero (pickOutputDtype req.supported_types)
  constructor
  · constructor
    · intro h
      by_contra hne
      simp [readOutput, hsz, hne] at h
    · intro h
      simp [readOutput, hsz, h]
  · intro h
    simp [readOutput, hsz, h]

/-- Witness for C4 at a concrete input: a 4000-byte float32 buffer is read
as 1000 elements. -/
theorem read_output_element_count_witness :
    readOutput (OutputReq.mk [1] 4000) =
      Except.ok (1000, NpDtype.float32) :=
  (read_output_element_count (OutputReq.mk [1] 4000)).2 (by decide)

/-- Maximum of a score list, as np.max computes it on a non-empty array
(np.max raises on an empty array; the empty case here is a junk value
never reached under the non-emptiness hypothesis). -/
noncomputable def listMax (l : List ℝ) : ℝ :=
  l.foldr max (l.headD 0)

/-- Embedding of _softmax over the reals: subtract the maximum score,
exponentiate, divide by the sum of exponentials. Float32 arithmetic is
modelled by exact real arithmetic. -/
noncomputable def softmax (scores : List ℝ) : List ℝ :=
  let max_score := listMax scores
  let exp_scores := scores.map (fun s => Real.exp (s - max_score))
  exp_scores.map (fun e => e / exp_scores.sum)

/-- Dividing each entry of a list by a constant divides the sum. -/
theorem sum_map_div (L : List ℝ) (S : ℝ) :
    (L.map (fun e => e / S)).sum = L.sum / S := by
  induction L with
  | nil => simp
  | cons a as ih => simp [ih, add_div]

/-- Normalizing a non-empty list of positive reals by its sum yields
entries in [0, 1] summing to exactly 1. -/
theorem normalize_pos_list (l : List ℝ) (hne : l ≠ []) (hpos : ∀ e ∈ l, 0 < e) :
    (∀ p ∈ l.map (fun e => e / l.sum), 0 ≤ p ∧ p ≤ 1) ∧
    (l.map (fun e => e / l.sum)).sum = 1 := by
  have hS : 0 < l.sum := List.sum_pos l hpos hne
  constructor
  · intro p hp
    obtain ⟨e, he, rfl⟩ := List.mem_map.1 hp
    have he0 : 0 < e := hpos e he
    have hle : e ≤ l.sum := List.single_le_sum (fun x hx => (hpos x hx).le) e he
    exact ⟨div_nonneg he0.le hS.le, (div_le_one hS).2 hle⟩
  · rw [sum_map_div, div_self (ne_of_gt hS)]

/-- C5: for every non-empty score vector, _softmax, which subtracts the
maximum before exponentiating and divides by the sum of exponentials,
returns a valid probability distribution: every value lies in [0, 1] and
the values sum to 1, hence within the 1e-5 tolerance, for arbitrarily
large or negative scores. -/
theorem softmax_is_probability_distribution (scores : List ℝ) (h : scores ≠ []) :
    (∀ p ∈ softmax scores, 0 ≤ p ∧ p ≤ 1) ∧
    (softmax scores).sum = 1 ∧
    |(softmax scores).sum - 1| ≤ 1 / 100000 := by
  have hpos : ∀ e ∈ scores.map (fun s => Real.exp (s - listMax scores)), 0 < e := by
    intro e he
    obtain ⟨s, _, rfl⟩ := List.mem_map.1 he
    exact Real.exp_pos _
  have hne : scores.map (fun s => Real.exp (s - listMax scores)) ≠ [] := by
    simpa using h
  obtain ⟨h1, h2⟩ := normalize_pos_list _ hne hpos
  have hsum : (softmax scores).sum = 1 := by
    simp only [softmax]
    exact h2
  refine ⟨?_, hsum, ?_⟩
  · intro p hp
    apply h1
    simpa only [softmax] using hp
  · rw [hsum]
    norm_num

/-- Witness for C5 at a concrete input: the one-element score vector [0]
is non-empty and its softmax is a probability distribution. -/
theorem softmax_is_probability_distribution_witness :
    ([(0 : ℝ)] ≠ []) ∧
    ((∀ p ∈ softmax [(0 : ℝ)], 0 ≤ p ∧ p ≤ 1) ∧
      (softmax [(0 : ℝ)]).sum = 1 ∧
      |(softmax [(0 : ℝ)]).sum - 1| ≤ 1 / 100000) :=
  ⟨by simp, softmax_is_probability_distribution [(0 : ℝ)] (by simp)⟩

/-- A file-system fragment: maps a path to the lines of the file when it
exists, and to none when no file is at that path. -/
def FileSys : Type := String → Option (List String)

/-- Embedding of _load_synsets: an empty (falsy) path yields no list; a
missing file makes open raise FileNotFoundError; otherwise keep the
stripped non-blank lines in order. -/
def loadSynsets (fs : FileSys) (path : String) : Except String (Option (List String)) :=
  if path = "" then Except.ok none
  else
    match fs path with
    | none => Except.error "FileNotFoundError"
    | some lines => Except.ok (some ((lines.map String.trim).filter (fun l => l ≠ "")))

/-- Splitting of a line at its first tab, as Python partition does:
the part before the first tab and everything after it. -/
def splitFirstTab (l : String) : String × String :=
  match l.splitOn "\t" with
  | [] => (l, "")
  | [x] => (x, "")
  | x :: rest => (x, String.intercalate "\t" rest)

/-- The line loop of _load_metadata: strip each line, skip blanks,
partition at the first tab, and record the pair when both the identifier
and the label are non-empty. Later lines overwrite earlier ones in the
Python dict, which the association list records by appending. -/
def parseMetadataLines (lines : List String) : List (String × String) :=
  lines.foldl
    (fun m line =>
      let l := line.trim
      if l = "" then m
      else
        let parts := splitFirstTab l
        if parts.1 ≠ "" ∧ parts.2 ≠ "" then m ++ [(parts.1, parts.2)] else m)
    []

/-- Lookup in an insertion-ordered association list with Python dict
semantics: the last binding of a key wins. -/
def dictGet (m : List (String × String)) (k : String) : Option String :=
  (m.reverse.find? (fun p => p.1 = k)).map Prod.snd

/-- Embedding of _load_metadata: an empty (falsy) path yields the empty
mapping; a missing file makes open raise FileNotFoundError; otherwise the
tab-separated lines are parsed into the mapping. -/
def loadMetadata (fs : FileSys) (path : String) : Except String (List (String × String)) :=
  if path = "" then Except.ok []
  else
    match fs path with
    | none => Except.error "FileNotFoundError"
    | some lines => Except.ok (parseMetadataLines lines)

/-- The per-synset label construction in _build_imagenet_labels:
label = metadata.get(synset, synset), and the entry is
the synset followed by a space and the label when they differ, else the
synset alone. -/
def labelEntry (metadata : List (String × String)) (synset : String) : String :=
  let label := (dictGet metadata synset).getD synset
  if label ≠ synset then synset ++ " " ++ label else synset

/-- The reconciliation core of _build_imagenet_labels on an already-loaded
synset list and metadata mapping: empty list fails; output size equal to
length + 1 prepends background; a remaining size mismatch fails; otherwise
the labels are built per synset. -/
def buildLabels (syns : List String) (metadata : List (String × String))
    (output_size : Nat) : Option (List String) :=
  if syns = [] then none
  else
    let syns2 := if output_size = syns.length + 1 then "background" :: syns else syns
    if output_size ≠ syns2.length then none
    else some (syns2.map (labelEntry metadata))

/-- Full embedding of _build_imagenet_labels from file paths: load the
synsets (propagating I/O errors), run the length checks, and only then
load the metadata, exactly as the source orders these steps. -/
def buildImagenetLabels (fs : FileSys) (synsets_path metadata_path : String)
    (output_size : Nat) : Except String (Option (List String)) :=
  match loadSynsets fs synsets_path with
  | Except.error e => Except.error e
  | Except.ok none => Except.ok none
  | Except.ok (some syns) =>
    if syns = [] then Except.ok none
    else
      let syns2 := if output_size = syns.length + 1 then "background" :: syns else syns
      if output_size ≠ syns2.length then Except.ok none
      else
        match loadMetadata fs metadata_path with
        | Except.error e => Except.error e
        | Except.ok metadata => Except.ok (some (syns2.map (labelEntry metadata)))

/-- With an empty metadata mapping every label entry is the synset itself. -/
theorem labelEntry_nil (s : String) : labelEntry [] s = s := by
  simp [labelEntry, dictGet]

/-- Mapping the empty-metadata label construction over a list of synsets
leaves the list unchanged. -/
theorem map_labelEntry_nil (l : List String) : l.map (labelEntry []) = l := by
  induction l with
  | nil => rfl
  | cons a as ih => simp [labelEntry_nil, ih]

/-- C6: for a non-empty class list of length n, output size n + 1 prepends
the synthetic background entry and yields n + 1 labels; an output size
equal to neither n nor n + 1 yields no labels at all; output size n yields
the n class identifiers unmodified (shown with the empty metadata mapping,
under which each entry is the identifier itself). -/
theorem build_labels_length_rules (syns : List String)
    (metadata : List (String × String)) (m : Nat) (h : syns ≠ []) :
    (m = syns.length + 1 →
      buildLabels syns metadata m =
        some (("background" :: syns).map (labelEntry metadata)) ∧
      (("background" :: syns).map (labelEntry metadata)).length = m) ∧
    (m ≠ syns.length + 1 → m ≠ syns.length → buildLabels syns metadata m = none) ∧
    (m = syns.length → buildLabels syns [] m = some syns) := by
  refine ⟨?_, ?_, ?_⟩
  · intro hm
    subst hm
    simp [buildLabels, h]
  · intro hm1 hm2
    simp [buildLabels, h, hm1, hm2]
  · intro hm
    subst hm
    simp [buildLabels, h, map_labelEntry_nil]

/-- Witness for C6 at concrete inputs: the two-synset list with output
size 3 gains a background entry, with output size 5 resolves to nothing,
and with output size 2 is returned unmodified. -/
theorem build_labels_length_rules_witness :
    (buildLabels ["a", "b"] [("a", "x")] 3 =
        some (("background" :: ["a", "b"]).map (labelEntry [("a", "x")])) ∧
      (("background" :: ["a", "b"]).map (labelEntry [("a", "x")])).length = 3) ∧
    buildLabels ["a", "b"] [("a", "x")] 5 = none ∧
    buildLabels ["a", "b"] [] 2 = some ["a", "b"] :=
  ⟨(build_labels_length_rules ["a", "b"] [("a", "x")] 3 (by decide)).1 rfl,
   (build_labels_length_rules ["a", "b"] [("a", "x")] 5 (by decide)).2.1
     (by decide) (by decide),
   (build_labels_length_rules ["a", "b"] [] 2 (by decide)).2.2 rfl⟩

/-- C7 counterexample: at the concrete metadata path
imagenet_metadata.txt on a file system without that file, _load_metadata
propagates the FileNotFoundError that open raises instead of returning the
empty mapping. -/
theorem load_metadata_missing_file_raises :
    loadMetadata (fun _ => none) "imagenet_metadata.txt" =
      Except.error "FileNotFoundError" := rfl

/-- C7 amended: an empty (unset) metadata path yields the empty mapping
without error; a non-empty path whose file is missing raises a
file-not-found error. -/
theorem load_metadata_empty_path (fs : FileSys) (path : String) :
    (path = "" → loadMetadata fs path = Except.ok []) ∧
    (path ≠ "" → fs path = none →
      loadMetadata fs path = Except.error "FileNotFoundError") := by
  constructor
  · intro h
    simp [loadMetadata, h]
  · intro h hf
    simp only [loadMetadata, if_neg h]
    rw [hf]

/-- Witness for C7 at concrete inputs: the empty path yields the empty
mapping even on an empty file system, and a missing named file errors. -/
theorem load_metadata_empty_path_witness :
    loadMetadata (fun _ => none) "" = Except.ok [] ∧
    loadMetadata (fun _ => none) "meta.txt" = Except.error "FileNotFoundError" :=
  ⟨(load_metadata_empty_path (fun _ => none) "").1 rfl,
   (load_metadata_empty_path (fun _ => none) "meta.txt").2 (by decide) rfl⟩

/-- C9 counterexample: with the mapping sending n01751748 to sea snake,
the final label entry is the identifier followed by the mapped label,
n01751748 sea snake, not the mapped label sea snake alone as claimed. -/
theorem label_entry_concatenates :
    labelEntry [("n01751748", "sea snake")] "n01751748" = "n01751748 sea snake" ∧
    dictGet [("n01751748", "sea snake")] "n01751748" = some "sea snake" := by
  constructor
  · rfl
  · rfl

/-- C9 amended: for each class identifier, the final label entry is the
identifier followed by a space and the mapped human label when the mapping
contains the identifier with a value different from it; it is the
identifier alone when the mapping lacks the identifier or maps it to
itself. -/
theorem label_entry_rule (metadata : List (String × String)) (synset : String) :
    (∀ label, dictGet metadata synset = some label → label ≠ synset →
      labelEntry metadata synset = synset ++ " " ++ label) ∧
    (dictGet metadata synset = none → labelEntry metadata synset = synset) ∧
    (dictGet metadata synset = some synset → labelEntry metadata synset = synset) := by
  refine ⟨?_, ?_, ?_⟩
  · intro label hget hne
    simp [labelEntry, hget, hne]
  · intro hget
    simp [labelEntry, hget]
  · intro hget
    simp [labelEntry, hget]

/-- Witness for C9 at concrete inputs: a mapped identifier with a distinct
label gets the two-part entry, and an unmapped identifier stays itself. -/
theorem label_entry_rule_witness :
    labelEntry [("a", "dog")] "a" = "a dog" ∧
    labelEntry [("a", "dog")] "b" = "b" :=
  ⟨(label_entry_rule [("a", "dog")] "a").1 "dog" rfl (by decide),
   (label_entry_rule [("a", "dog")] "b").2.1 rfl⟩

/-- PIL resampling filters used by the preprocessing configurations. -/
inductive Resample where
  | bilinear
  | bicubic
  deriving DecidableEq, Repr

/-- A preprocessing configuration, the dictionary _pick_preprocess_config
returns: resize target, crop box, per-channel mean and std, filter. -/
structure PreprocessConfig where
  resize_size : Int
  crop_height : Int
  crop_width : Int
  mean : List ℚ
  std : List ℚ
  resample : Resample
  deriving DecidableEq, Repr

/-- Containment of a contiguous character pattern in a character list,
the Python in operator on strings. -/
def charsContain (pat : List Char) : List Char → Bool
  | [] => pat.isEmpty
  | c :: rest => pat.isPrefixOf (c :: rest) || charsContain pat rest

/-- Containment of a substring, the Python in operator on strings. -/
def strContains (s pat : String) : Bool :=
  charsContain pat.data s.data

/-- Lowercasing of the model file name, Python str.lower, applied per
character (model file names are ASCII). -/
def strToLower (s : String) : String :=
  String.mk (s.data.map Char.toLower)

/-- Generic ImageNet channel means, np.array([0.485, 0.456, 0.406]). -/
def imagenetMean : List ℚ := [0.485, 0.456, 0.406]

/-- Generic ImageNet channel standard deviations,
np.array([0.229, 0.224, 0.225]). -/
def imagenetStd : List ℚ := [0.229, 0.224, 0.225]

/-- Embedding of _pick_preprocess_config on the already-extracted model
file name (os.path.basename of the model path): lowercase it, try the four
EfficientNet family patterns in order, and otherwise synthesize the
generic configuration. Python round on a float is round-half-to-even; the
quantity max(crop) / 0.875 = 8 max(crop) / 7 is never an exact half (16c -
14k - 7 is odd, so its distance to any half exceeds 1/14, far beyond
float error), so the Mathlib round over ℚ computes the same integer. -/
def pickPreprocessConfig (model_file : String) (input_height input_width : Int) :
    PreprocessConfig :=
  let model_name := strToLower model_file
  if strContains model_name "efficientnet_v2_s" then
    ⟨384, 384, 384, imagenetMean, imagenetStd, Resample.bilinear⟩
  else if strContains model_name "efficientnet_v2_m" then
    ⟨480, 480, 480, imagenetMean, imagenetStd, Resample.bilinear⟩
  else if strContains model_name "efficientnet_v2_l" then
    ⟨480, 480, 480, [0.5, 0.5, 0.5], [0.5, 0.5, 0.5], Resample.bicubic⟩
  else if strContains model_name "efficientnet_b" then
    ⟨600, 600, 600, imagenetMean, imagenetStd, Resample.bicubic⟩
  else
    let crop_height := if input_height > 0 then input_height else 224
    let crop_width := if input_width > 0 then input_width else 224
    let resize_size := round ((max crop_height crop_width : ℚ) / 0.875)
    ⟨resize_size, crop_height, crop_width, imagenetMean, imagenetStd,
      Resample.bilinear⟩

/-- C8: when the lowered model file name matches none of the architecture
family patterns, the synthesized config has crop size equal to the
inferred size with 224 substituted for any non-positive component, resize
size equal to the (larger) crop size divided by 0.875 and rounded to the
nearest integer, generic ImageNet mean and std, and bilinear resampling. -/
theorem pick_preprocess_generic (model_file : String) (h w : Int)
    (h1 : strContains (strToLower model_file) "efficientnet_v2_s" = false)
    (h2 : strContains (strToLower model_file) "efficientnet_v2_m" = false)
    (h3 : strContains (strToLower model_file) "efficientnet_v2_l" = false)
    (h4 : strContains (strToLower model_file) "efficientnet_b" = false) :
    (pickPreprocessConfig model_file h w).crop_height =
      (if h > 0 then h else 224) ∧
    (pickPreprocessConfig model_file h w).crop_width =
      (if w > 0 then w else 224) ∧
    (pickPreprocessConfig model_file h w).resize_size =
      round ((max ((if h > 0 then h else 224) : Int)
        ((if w > 0 then w else 224) : Int) : ℚ) / 0.875) ∧
    (pickPreprocessConfig model_file h w).mean = imagenetMean ∧
    (pickPreprocessConfig model_file h w).std = imagenetStd ∧
    (pickPreprocessConfig model_file h w).resample = Resample.bilinear := by
  simp [pickPreprocessConfig, h1, h2, h3, h4]

/-- Witness for C8 at a concrete input: mobilenet_v2.tflite matches no
family pattern, and for inferred size 224 x 224 the generic config is
crop 224 x 224 with resize round(224 / 0.875) = 256. -/
theorem pick_preprocess_generic_witness :
    (pickPreprocessConfig "mobilenet_v2.tflite" 224 224).crop_height =
      (if (224 : Int) > 0 then 224 else 224) ∧
    (pickPreprocessConfig "mobilenet_v2.tflite" 224 224).crop_width =
      (if (224 : Int) > 0 then 224 else 224) ∧
    (pickPreprocessConfig "mobilenet_v2.tflite" 224 224).resize_size =
      round ((max ((if (224 : Int) > 0 then 224 else 224) : Int)
        ((if (224 : Int) > 0 then 224 else 224) : Int) : ℚ) / 0.875) ∧
    (pickPreprocessConfig "mobilenet_v2.tflite" 224 224).mean = imagenetMean ∧
    (pickPreprocessConfig "mobilenet_v2.tflite" 224 224).std = imagenetStd ∧
    (pickPreprocessConfig "mobilenet_v2.tflite" 224 224).resample =
      Resample.bilinear :=
  pick_preprocess_generic "mobilenet_v2.tflite" 224 224 (by decide) (by decide)
    (by decide) (by decide)

/-- Ascending argsort of a score list, as np.argsort computes: the index
list 0 .. n-1 sorted by score (tie order is the sort internals, which the
spec leaves unspecified). -/
def argsortAsc (l : List ℚ) : List Nat :=
  (List.range l.length).mergeSort (fun i j => decide (l.getD i 0 ≤ l.getD j 0))

/-- First index of the maximum score, as np.argmax computes on a non-empty
array: scan the indices, keeping the first strictly largest score. -/
def argmaxIdx (l : List ℚ) : Nat :=
  (List.range l.length).foldl
    (fun best i => if l.getD best 0 < l.getD i 0 then i else best) 0

/-- The index selection of _print_topk: clamp top_k to the vector length;
when the clamped count is 1 use argmax, otherwise take the Python slice
[-top_k:] of the ascending argsort and reverse it. Python slicing with -0
takes the whole list, which the count-0 case records. -/
def topkIndices (flat : List ℚ) (top_k : Nat) : List Nat :=
  let t := min top_k flat.length
  if t = 1 then [argmaxIdx flat]
  else
    let asort := argsortAsc flat
    (if t = 0 then asort else asort.drop (asort.length - t)).reverse

/-- The label _print_topk shows for one reported index: the table entry
when the table is present (Python truthiness: non-None and non-empty) and
long enough, else the synthetic class_ name. -/
def topkLabel (labels : Option (List String)) (idx : Nat) : String :=
  match labels with
  | some ls =>
    if ls ≠ [] ∧ idx < ls.length then ls.getD idx "" else "class_" ++ toString idx
  | none => "class_" ++ toString idx

/-- Embedding of _print_topk: the printed lines as (rank, label, score)
triples, ranks starting at 1 as enumerate(indices, start=1) yields them. -/
def printTopk (scores : List ℚ) (labels : Option (List String)) (top_k : Nat) :
    List (Nat × String × ℚ) :=
  (topkIndices scores top_k).enum.map
    (fun p => (p.1 + 1, topkLabel labels p.2, scores.getD p.2 0))

/-- The running best index of the argmax fold stays below the bound when
the start index and every scanned index do. -/
theorem argmax_foldl_lt (l : List ℚ) (n : Nat) :
    ∀ (is : List Nat) (b : Nat), b < n → (∀ i ∈ is, i < n) →
      is.foldl (fun best i => if l.getD best 0 < l.getD i 0 then i else best) b < n := by
  intro is
  induction is with
  | nil =>
    intro b hb _
    simpa using hb
  | cons i is ih =>
    intro b hb his
    simp only [List.foldl_cons]
    apply ih
    · by_cases hc : l.getD b 0 < l.getD i 0
      · rw [if_pos hc]
        exact his i (List.mem_cons_self i is)
      · rw [if_neg hc]
        exact hb
    · intro j hj
      exact his j (List.mem_cons_of_mem i hj)

/-- On a non-empty score list the argmax index is in range. -/
theorem argmaxIdx_lt (l : List ℚ) (h : 0 < l.length) : argmaxIdx l < l.length := by
  apply argmax_foldl_lt l l.length (List.range l.length) 0 h
  intro i hi
  exact List.mem_range.mp hi

/-- The argsort is a permutation of the index range, so it has the same
length and the same members. -/
theorem argsortAsc_perm (l : List ℚ) :
    (argsortAsc l).Perm (List.range l.length) :=
  List.mergeSort_perm (List.range l.length) _

/-- Every index selected by topkIndices is in range of the score list. -/
theorem topkIndices_lt (scores : List ℚ) (top_k : Nat) :
    ∀ idx ∈ topkIndices scores top_k, idx < scores.length := by
  intro idx hidx
  simp only [topkIndices] at hidx
  split at hidx
  · rename_i ht
    have hlen : 0 < scores.length := by omega
    simp only [List.mem_singleton] at hidx
    exact hidx ▸ argmaxIdx_lt scores hlen
  · rw [List.mem_reverse] at hidx
    have hmem : idx ∈ argsortAsc scores := by
      split at hidx
      · exact hidx
      · exact List.mem_of_mem_drop hidx
    have hr : idx ∈ List.range scores.length :=
      (argsortAsc_perm scores).mem_iff.mp hmem
    exact List.mem_range.mp hr

/-- topkIndices never selects more indices than there are scores. -/
theorem topkIndices_length_le (scores : List ℚ) (top_k : Nat) :
    (topkIndices scores top_k).length ≤ scores.length := by
  have hlen : (argsortAsc scores).length = scores.length := by
    rw [(argsortAsc_perm scores).length_eq, List.length_range]
  simp only [topkIndices]
  split
  · rename_i ht
    simp only [List.length_singleton]
    omega
  · rw [List.length_reverse]
    split
    · omega
    · rw [List.length_drop]
      omega

/-- Pairs of an enumeration carry members of the underlying list. -/
theorem snd_mem_of_mem_enum {α : Type} {l : List α} {p : Nat × α}
    (h : p ∈ l.enum) : p.2 ∈ l := by
  rw [List.mem_enum_iff_getElem?] at h
  obtain ⟨hlt, he⟩ := List.getElem?_eq_some.mp h
  exact he ▸ List.getElem_mem hlt

/-- C10: top-k reporting never reads the label table out of range: the
requested k is clamped to the score vector length, every selected index is
within the score vector, every reported line is built from an in-range
index, and an index at or beyond the label table length, or an absent (or
empty, hence falsy) table, renders the synthetic class_ name; a table
entry is read only under the in-range guard. -/
theorem print_topk_safe (scores : List ℚ) (labels : Option (List String))
    (top_k : Nat) :
    (∀ idx ∈ topkIndices scores top_k, idx < scores.length) ∧
    (printTopk scores labels top_k).length ≤ scores.length ∧
    (∀ e ∈ printTopk scores labels top_k, ∃ idx, idx < scores.length ∧
      e.2.1 = topkLabel labels idx ∧ e.2.2 = scores.getD idx 0) ∧
    (∀ ls idx, labels = some ls → ls.length ≤ idx →
      topkLabel labels idx = "class_" ++ toString idx) ∧
    (∀ idx, labels = none → topkLabel labels idx = "class_" ++ toString idx) ∧
    (∀ ls idx, labels = some ls → ls ≠ [] → idx < ls.length →
      topkLabel labels idx = ls.getD idx "") := by
  refine ⟨topkIndices_lt scores top_k, ?_, ?_, ?_, ?_, ?_⟩
  · rw [printTopk, List.length_map, List.enum_length]
    exact topkIndices_length_le scores top_k
  · intro e he
    simp only [printTopk, List.mem_map] at he
    obtain ⟨p, hp, rfl⟩ := he
    exact ⟨p.2, topkIndices_lt scores top_k p.2 (snd_mem_of_mem_enum hp), rfl, rfl⟩
  · intro ls idx hl hle
    subst hl
    have hc : ¬(ls ≠ [] ∧ idx < ls.length) := fun hand => absurd hand.2 (by omega)
    simp [topkLabel, hc]
  · intro idx hl
    subst hl
    rfl
  · intro ls idx hl hne hlt
    subst hl
    simp [topkLabel, hne, hlt]

end ImagenetSample
